import Mathlib

/-!
Verification development for the ossdotnow leaderboard aggregation core.

This file shallowly embeds the data model and operations of the
contribution-rollup subsystem:

* `upsertRollup` — the aggregator's conflict-resolving write on the
  `contribRollups` table (`packages/api/src/leaderboard/aggregator.ts`);
* `getLeaderboardPage`, `topFromRedis`, `topFromDb` — the two-tier read
  path (`packages/api/src/leaderboard/read.ts`);
* `acquireLock`, `releaseLock`, `withLock` — the token-guarded distributed
  lock (`packages/api/src/redis/lock.ts`);
* the dual-provider branch of the internal backfill route;
* `reducePublicContributionCounts` and the 30-day derivation of the GitLab
  provider (`packages/api/providers/gitlabProvider.ts`);
* `filterUndone` / one cycle of the batch backfill orchestrator
  (`scripts/lb-backfill-365-all.ts`).

External effects (Redis, Postgres, HTTP) are modelled as explicit state:
the ranked cache is a `CacheState` (its error case embeds a thrown read),
the durable store is a list of rows, the lock store is a map from keys to
leases, and time is an explicit `now` parameter in milliseconds/seconds as
appropriate.  JavaScript numbers are modelled as `Int`, timestamps from
`Date.getTime()` as `Int` milliseconds.
-/

namespace Ossdotnow

/-! ## Data model: periods, windows, rollup rows -/

/-- Materialized period enum values in the DB (`last_30d` / `last_365d`). -/
inductive PeriodKey
  | last_30d
  | last_365d
deriving DecidableEq, Repr

/-- Windows supported by the read path (`'30d' | '365d'`). -/
inductive WindowKey
  | w30d
  | w365d
deriving DecidableEq, Repr

/-- `PERIOD_FROM_WINDOW` from `read.ts`: maps a window to its DB period. -/
def PERIOD_FROM_WINDOW : WindowKey → PeriodKey
  | WindowKey.w30d => PeriodKey.last_30d
  | WindowKey.w365d => PeriodKey.last_365d

/-- One row of the `contribRollups` table: keyed by (userId, period),
holding commits / prs / issues / total plus `fetchedAt` and `updatedAt`. -/
structure RollupRow where
  userId : String
  period : PeriodKey
  commits : Int
  prs : Int
  issues : Int
  total : Int
  fetchedAt : Nat
  updatedAt : Nat
deriving DecidableEq, Repr

/-- The durable store: the list of rows of `contribRollups`. -/
abbrev RollupTable := List RollupRow

/-- Key predicate of the unique index on (userId, period). -/
def rollupKeyIs (u : String) (p : PeriodKey) (r : RollupRow) : Bool :=
  decide (r.userId = u ∧ r.period = p)

/-- `upsertRollup` from `aggregator.ts`: computes
`total = commits + prs + issues` at write time and performs a single
conflict-resolving write on target (userId, period).  On conflict the
update SET clause overwrites commits, prs, issues, total, fetchedAt and
updatedAt of the existing row; otherwise a fresh row is inserted. -/
def upsertRollup (tbl : RollupTable) (userId : String) (period : PeriodKey)
    (commits prs issues : Int) (fetchedAt now : Nat) : RollupTable :=
  let total := commits + prs + issues
  if tbl.any (rollupKeyIs userId period) then
    tbl.map (fun r =>
      if rollupKeyIs userId period r then
        { r with
          commits := commits, prs := prs, issues := issues,
          total := total, fetchedAt := fetchedAt, updatedAt := now }
      else r)
  else
    tbl ++ [{ userId := userId, period := period,
              commits := commits, prs := prs, issues := issues,
              total := total, fetchedAt := fetchedAt, updatedAt := now }]

/-- Look up the stored record for (userId, period) (first matching row). -/
def findRollup (tbl : RollupTable) (u : String) (p : PeriodKey) :
    Option RollupRow :=
  tbl.find? (rollupKeyIs u p)

/-! ## Leaderboard read path (`read.ts`) -/

/-- An entry of a leaderboard page (`LeaderRow` in `read.ts`). -/
structure LeaderRow where
  userId : String
  score : Int
deriving DecidableEq, Repr

/-- State of one window's ranked cache (Redis ZSET): either a readable
full ranking in descending score order, or a read failure (`err` embeds a
thrown `redis.zrange`, which `topFromRedis` catches). -/
inductive CacheState
  | ok (rows : List LeaderRow)
  | err
deriving Repr

/-- Which tier served the page (`source: 'redis' | 'db'` in `read.ts`;
the spec calls these the "cache" and the "durable" tier). -/
inductive Source
  | redis
  | db
deriving DecidableEq, Repr

/-- Result of `getLeaderboardPage`. -/
structure PageResult where
  entries : List LeaderRow
  nextCursor : Option Int
  source : Source
deriving DecidableEq, Repr

/-- Redis `ZRANGE key start stop REV WITHSCORES` over a descending
ranking, for the non-negative ranks the read path passes: the slice of
ranks `start..stop` inclusive, clipped at the end of the ranking. -/
def zrangeRev (rows : List LeaderRow) (start stop : Int) : List LeaderRow :=
  ((rows.drop start.toNat).take (stop - start + 1).toNat)

/-- `topFromRedis` from `read.ts`: reads a page from the ranked cache and
swallows every read error, returning `[]` so the DB can be the fallback. -/
def topFromRedis (cache : CacheState) (start stop : Int) : List LeaderRow :=
  match cache with
  | CacheState.ok rows => zrangeRev rows start stop
  | CacheState.err => []

/-- Stable descending insertion by `total` (model of SQL
`ORDER BY total DESC`; ties keep table order, which the SQL leaves
unspecified). -/
def insertByTotalDesc (r : RollupRow) : List RollupRow → List RollupRow
  | [] => [r]
  | x :: xs =>
    if x.total < r.total then r :: x :: xs else x :: insertByTotalDesc r xs

/-- Stable sort of rollup rows by `total` descending. -/
def sortByTotalDesc : List RollupRow → List RollupRow
  | [] => []
  | x :: xs => insertByTotalDesc x (sortByTotalDesc xs)

/-- `topFromDb` from `read.ts`: DB fallback — rows of the requested
window's period, ordered by total descending, with `LIMIT limit OFFSET
offset`. -/
def topFromDb (tbl : RollupTable) (w : WindowKey) (limit offset : Nat) :
    List LeaderRow :=
  let rows := sortByTotalDesc
    (tbl.filter (fun r => decide (r.period = PERIOD_FROM_WINDOW w)))
  ((rows.drop offset).take limit).map (fun r => ⟨r.userId, r.total⟩)

/-- Effective page size: `Math.min(Math.max(opts.limit, 1), 100)`. -/
def effLimit (limit : Int) : Int := min (max limit 1) 100

/-- Effective start rank: `Math.max(opts.cursor ?? 0, 0)`. -/
def effStart (cursor : Option Int) : Int := max (cursor.getD 0) 0

/-- `getLeaderboardPage` from `read.ts`: clamp the inputs, try the ranked
cache for ranks `[start, start+limit-1]`; a non-empty answer is served
with `source = redis` and `nextCursor = start + limit` exactly when the
page is full; otherwise fall back to the DB with the same offset/limit
and `source = db`. -/
def getLeaderboardPage (cache : WindowKey → CacheState) (tbl : RollupTable)
    (window : WindowKey) (limitArg : Int) (cursor : Option Int) : PageResult :=
  let limit := effLimit limitArg
  let start := effStart cursor
  let stop := start + limit - 1
  let fromRedis := topFromRedis (cache window) start stop
  if fromRedis.length ≠ 0 then
    { entries := fromRedis,
      nextCursor :=
        if fromRedis.length = limit.toNat then some (start + limit) else none,
      source := Source.redis }
  else
    let fromDb := topFromDb tbl window limit.toNat start.toNat
    { entries := fromDb,
      nextCursor :=
        if fromDb.length = limit.toNat then some (start + limit) else none,
      source := Source.db }

/-! ## Distributed lock (`lock.ts`) -/

/-- A stored lease: the random token and its absolute expiry time. -/
structure Lease where
  token : String
  expiresAt : Nat
deriving DecidableEq, Repr

/-- The Redis keyspace restricted to lock keys: a key is either absent or
holds a lease.  A lease with `expiresAt ≤ now` is expired: Redis treats
the key as absent (the model keeps the stale entry, every operation
checks expiry). -/
abbrev LockStore := String → Option Lease

/-- Write a lease into the store. -/
def setLease (s : LockStore) (key tok : String) (expiresAt : Nat) : LockStore :=
  fun k => if k = key then some ⟨tok, expiresAt⟩ else s k

/-- `acquireLock` from `lock.ts`: `SET key token NX EX ttl` — succeeds and
stores a fresh random token iff the key is absent or expired; returns
`none` when an unexpired lease is held. -/
def acquireLock (s : LockStore) (key : String) (ttlSec : Nat) (now : Nat)
    (fresh : String) : Option String × LockStore :=
  match s key with
  | some l =>
    if now < l.expiresAt then (none, s)
    else (some fresh, setLease s key fresh (now + ttlSec))
  | none => (some fresh, setLease s key fresh (now + ttlSec))

/-- Token comparison performed by the release Lua script
(`GET KEYS[1] == ARGV[1]`).  `provided = none` models the JavaScript call
`releaseLock(key)` with the token argument omitted (`undefined`), which
can never equal a stored token string. -/
def tokenMatches (stored : String) (provided : Option String) : Bool :=
  match provided with
  | some t => decide (stored = t)
  | none => false

/-- `releaseLock` from `lock.ts`: atomic compare-and-delete — deletes the
key only when it holds an unexpired lease whose token equals the provided
token; every storage error is swallowed (`evalFails = true` models a
thrown `redis.eval`, after which the store is unchanged and no error
escapes — the function is total). -/
def releaseLock (evalFails : Bool) (s : LockStore) (key : String)
    (token : Option String) (now : Nat) : LockStore :=
  if evalFails then s
  else
    match s key with
    | some l =>
      if now < l.expiresAt ∧ tokenMatches l.token token then
        fun k => if k = key then none else s k
      else s
    | none => s

/-- Errors escaping `withLock`: the lock-conflict error thrown when
acquisition fails, or the error thrown by the wrapped function. -/
inductive WithLockErr (ε : Type)
  | conflict
  | fnError (e : ε)
deriving DecidableEq, Repr

/-- `withLock` from `lock.ts`: acquire, run `fn`, and always release in a
`finally` (with the matching token); with a conflict it throws
`LOCK_CONFLICT` without running `fn`.  `fn` receives and returns the lock
store so that it may itself take locks. -/
def withLock {ε α : Type} (relFails : Bool) (s : LockStore) (key : String)
    (ttlSec now : Nat) (fresh : String)
    (fn : LockStore → Except ε α × LockStore) :
    Except (WithLockErr ε) α × LockStore :=
  match acquireLock s key ttlSec now fresh with
  | (none, s1) => (Except.error WithLockErr.conflict, s1)
  | (some tok, s1) =>
    let r := fn s1
    let s3 := releaseLock relFails r.2 key (some tok) now
    match r.1 with
    | Except.ok v => (Except.ok v, s3)
    | Except.error e => (Except.error (WithLockErr.fnError e), s3)

/-- `backfillLockKey` from `lock.ts`. -/
def backfillLockKey (provider userId : String) : String :=
  "lock:backfill:" ++ provider ++ ":" ++ userId

/-! ## Internal backfill route, dual-provider branch -/

/-- Errors of the dual-provider branch of the internal backfill route:
the inner `LOCK_CONFLICT:<p2>` throw, or a failure of `runOnce`. -/
inductive RouteErr
  | lockConflictProvider
  | runErr
deriving DecidableEq, Repr

/-- The dual-provider branch of `POST /api/internal/leaderboard/backfill`
(both a GitHub and a GitLab handle present).  The route sorts the two
providers, so `k1 = backfillLockKey "github" uid` and
`k2 = backfillLockKey "gitlab" uid`; it runs
`withLock k1` around: acquire `k2`; on failure throw
`LOCK_CONFLICT:<p2>` (surfaced as HTTP 409 by the route's catch); else
run `runOnce` and, in a `finally`, call `releaseLock(k2)` — as in the
source, with the token argument omitted. -/
def dualProviderBackfill (relFails : Bool) (s : LockStore) (k1 k2 : String)
    (ttlSec now : Nat) (fresh1 fresh2 : String)
    (runOnce : Except Unit Unit) :
    Except (WithLockErr RouteErr) Unit × LockStore :=
  withLock relFails s k1 ttlSec now fresh1 (fun s1 =>
    match acquireLock s1 k2 ttlSec now fresh2 with
    | (none, s2) => (Except.error RouteErr.lockConflictProvider, s2)
    | (some _got2, s2) =>
      let r : Except RouteErr Unit :=
        match runOnce with
        | Except.ok _ => Except.ok ()
        | Except.error _ => Except.error RouteErr.runErr
      (r, releaseLock false s2 k2 none now))

/-! ## GitLab provider (`gitlabProvider.ts`) -/

/-- `push_data` of a GitLab event (`commit_count` present iff numeric). -/
structure PushData where
  commit_count : Option Int
deriving DecidableEq, Repr

/-- A GitLab activity event, after schema validation.  `created_at` is
the event timestamp as milliseconds (`new Date(e.created_at).getTime()`,
which is how the source always consumes it). -/
structure GitlabEvent where
  id : Nat
  project_id : Option Nat
  action_name : Option String
  target_type : Option String
  created_at : Int
  push_data : Option PushData
deriving DecidableEq, Repr

/-- Three contribution counters (commits / opened MRs / opened issues). -/
structure Counts where
  commits : Int
  mrs : Int
  issues : Int
deriving DecidableEq, Repr

/-- JavaScript `s.toLowerCase()` (GitLab action names are ASCII). -/
def toLowerStr (s : String) : String :=
  String.mk (s.data.map Char.toLower)

/-- JavaScript `s.startsWith(sub)` on character lists. -/
def listStartsWith : List Char → List Char → Bool
  | _, [] => true
  | [], _ :: _ => false
  | a :: as, b :: bs => a == b && listStartsWith as bs

/-- JavaScript `s.includes(sub)`. -/
def strIncludes (s sub : String) : Bool :=
  let rec go : List Char → Bool
    | [] => sub.toList.isEmpty
    | a :: as => listStartsWith (a :: as) sub.toList || go as
  go s.toList

/-- One iteration of the counting loop of
`reducePublicContributionCounts`: a push event (with a numeric
`commit_count` and an action containing "push") contributes
`max 0 commit_count` commits; otherwise an `opened` action on a
`MergeRequest` target contributes one MR and an `opened` action on an
`Issue` target contributes one issue. -/
def reduceStep (acc : Counts) (e : GitlabEvent) : Counts :=
  let target := e.target_type
  let action := toLowerStr (e.action_name.getD "")
  let rest :=
    if target = some "MergeRequest" ∧ action = "opened" then
      { acc with mrs := acc.mrs + 1 }
    else if target = some "Issue" ∧ action = "opened" then
      { acc with issues := acc.issues + 1 }
    else acc
  match e.push_data with
  | some pd =>
    match pd.commit_count with
    | some cc =>
      if strIncludes action "push" then
        { acc with commits := acc.commits + max 0 cc }
      else rest
    | none => rest
  | none => rest

/-- `reducePublicContributionCounts` from `gitlabProvider.ts`. -/
def reducePublicContributionCounts (events : List GitlabEvent) : Counts :=
  events.foldl reduceStep ⟨0, 0, 0⟩

/-- The per-page window filter of `fetchUserEventsByWindow`
(`t >= lowerMs && t < upperMs`): every event the 365-day fetch returns
satisfies it. -/
def directWindowFilter (events : List GitlabEvent) (lowerMs upperMs : Int) :
    List GitlabEvent :=
  events.filter (fun e => decide (lowerMs ≤ e.created_at ∧ e.created_at < upperMs))

/-- The pure core of `getGitlabContributionRollups`: given the public
event set already fetched for the 365-day window, the 30-day totals are
derived by filtering that same set by timestamp
(`created_at >= from30Ms`) — no separate 30-day fetch exists, the only
input is the 365-day set.  Returns (30-day counts, 365-day counts). -/
def gitlabRollupCounts (publicEvents365 : List GitlabEvent)
    (from30Ms : Int) : Counts × Counts :=
  let publicEvents30 :=
    publicEvents365.filter (fun e => decide (from30Ms ≤ e.created_at))
  (reducePublicContributionCounts publicEvents30,
   reducePublicContributionCounts publicEvents365)

/-! ## Batch backfill orchestrator (`lb-backfill-365-all.ts`) -/

/-- Provider handles attached to a user's Redis metadata hash
(`githubLogin` / `gitlabUsername` after `asTrimmed`). -/
structure UserMeta where
  gh : Option String
  gl : Option String
deriving DecidableEq, Repr

/-- `filterUndone` from the batch script: keep the ids that are not
members of the per-run-length completion set `lb:backfill:done:<days>`. -/
def filterUndone (ids : List String) (done : List String) : List String :=
  ids.filter (fun id => !(done.contains id))

/-- Result of one cycle of the batch loop: the ids dispatched to the
backfill endpoint and the completion set after the cycle. -/
structure CycleResult where
  dispatched : List String
  doneAfter : List String
deriving Repr

/-- One iteration of the `while` loop of `main` in the batch script:
filter the population against the completion set (an empty remainder
ends the run with zero dispatches), take a batch, drop users without any
provider handle, dispatch each remaining id exactly once, and add every
id whose call succeeded (`res.ok`) to the completion set at the end of
the batch. -/
def runBatchCycle (allIds done : List String) (batchSize : Nat)
    (meta : String → UserMeta) (callOk : String → Bool) : CycleResult :=
  let undone := filterUndone allIds done
  match undone with
  | [] => ⟨[], done⟩
  | u :: us =>
    let batch := (u :: us).take batchSize
    let tasksQueue :=
      batch.filter (fun id => (meta id).gh.isSome || (meta id).gl.isSome)
    let succeeded := tasksQueue.filter callOk
    ⟨tasksQueue, done ++ succeeded⟩

/-! ## Theorems -/

/-- C1: after any successful rollup write by the aggregator for a given
(userId, period), the stored record holds exactly the commits, prs,
issues and fetchedAt supplied at that write, with `total` recomputed as
`commits + prs + issues` at write time (the write never receives an
upstream total); the record equality over an arbitrary prior table shows
that no field of a previously stored record for the same key survives —
last writer wins, with no partial merge. -/
theorem upsertRollup_last_writer_wins
    (tbl : RollupTable) (u : String) (p : PeriodKey)
    (c pr i : Int) (f now : Nat) :
    findRollup (upsertRollup tbl u p c pr i f now) u p
      = some ⟨u, p, c, pr, i, c + pr + i, f, now⟩ := by
  induction tbl with
  | nil => simp [upsertRollup, findRollup, rollupKeyIs]
  | cons r t ih =>
    by_cases h : rollupKeyIs u p r
    · have hu : r.userId = u ∧ r.period = p := by
        simpa [rollupKeyIs] using h
      simp [upsertRollup, findRollup, List.any_cons, h, rollupKeyIs,
        hu.1, hu.2]
    · have hfalse : rollupKeyIs u p r = false := by
        simpa using h
      rcases ht : t.any (rollupKeyIs u p) with _ | _
      · have ih' : (t ++
            [({ userId := u, period := p, commits := c, prs := pr,
                issues := i, total := c + pr + i, fetchedAt := f,
                updatedAt := now } : RollupRow)]).find? (rollupKeyIs u p)
            = some ⟨u, p, c, pr, i, c + pr + i, f, now⟩ := by
          simpa [upsertRollup, findRollup, ht] using ih
        simp [upsertRollup, findRollup, List.any_cons, hfalse, ht,
          List.find?_cons_of_neg, ih']
      · have ih' : (t.map (fun r =>
            if rollupKeyIs u p r then
              { r with
                commits := c, prs := pr, issues := i,
                total := c + pr + i, fetchedAt := f,
                updatedAt := now }
            else r)).find? (rollupKeyIs u p)
            = some ⟨u, p, c, pr, i, c + pr + i, f, now⟩ := by
          simpa [upsertRollup, findRollup, ht] using ih
        simp [upsertRollup, findRollup, List.any_cons, hfalse, ht,
          List.find?_cons_of_neg, ih']

/-- Clamping the page size is idempotent. -/
theorem effLimit_idem (l : Int) : effLimit (effLimit l) = effLimit l := by
  simp only [effLimit]
  omega

/-- Clamping the cursor is idempotent. -/
theorem effStart_idem (c : Option Int) :
    effStart (some (effStart c)) = effStart c := by
  simp only [effStart, Option.getD_some]
  omega

/-- C9: `getLeaderboardPage` is total over arbitrary caller input: the
effective limit is clamped into [1, 100], the effective cursor is
clamped to at least 0 (a missing cursor becomes 0), and the page served
for arbitrary input equals the page served for the clamped input, so the
cache range and DB offset/limit are always well-formed. -/
theorem getLeaderboardPage_input_clamping
    (cache : WindowKey → CacheState) (tbl : RollupTable) (w : WindowKey)
    (limitArg : Int) (cursor : Option Int) :
    1 ≤ effLimit limitArg ∧ effLimit limitArg ≤ 100 ∧
    0 ≤ effStart cursor ∧
    getLeaderboardPage cache tbl w limitArg cursor
      = getLeaderboardPage cache tbl w (effLimit limitArg)
          (some (effStart cursor)) := by
  refine ⟨?_, ?_, ?_, ?_⟩
  · simp only [effLimit]; omega
  · simp only [effLimit]; omega
  · rcases cursor with _ | c <;> simp [effStart]
  · simp only [getLeaderboardPage, effLimit_idem, effStart_idem]

/-- C2: a page the ranked cache answers with at least one entry is served
with `source = redis` (the cache tier), with exactly the cache's range
answer as entries, and with `nextCursor = cursor + limit` exactly when
the page is full (a short page yields `nextCursor = none`); stated for
in-range inputs `1 ≤ limit ≤ 100`, `0 ≤ cursor` (out-of-range inputs are
first clamped, see the clamping theorem). -/
theorem getLeaderboardPage_cache_next_cursor
    (cache : WindowKey → CacheState) (tbl : RollupTable) (w : WindowKey)
    (limit cursor : Int) (h1 : 1 ≤ limit) (h2 : limit ≤ 100)
    (h3 : 0 ≤ cursor)
    (hne : topFromRedis (cache w) cursor (cursor + limit - 1) ≠ []) :
    (getLeaderboardPage cache tbl w limit (some cursor)).source
        = Source.redis ∧
    (getLeaderboardPage cache tbl w limit (some cursor)).entries
        = topFromRedis (cache w) cursor (cursor + limit - 1) ∧
    (getLeaderboardPage cache tbl w limit (some cursor)).nextCursor
        = (if (getLeaderboardPage cache tbl w limit
                (some cursor)).entries.length = limit.toNat
           then some (cursor + limit) else none) := by
  have hl : effLimit limit = limit := by simp only [effLimit]; omega
  have hs : effStart (some cursor) = cursor := by
    simp only [effStart, Option.getD_some]; omega
  have hlen : (topFromRedis (cache w) cursor (cursor + limit - 1)).length
      ≠ 0 := by
    simpa [List.length_eq_zero] using hne
  have hpage : getLeaderboardPage cache tbl w limit (some cursor)
      = { entries := topFromRedis (cache w) cursor (cursor + limit - 1),
          nextCursor :=
            if (topFromRedis (cache w) cursor
                  (cursor + limit - 1)).length = limit.toNat
            then some (cursor + limit) else none,
          source := Source.redis } := by
    simp [getLeaderboardPage, hl, hs, hlen]
  refine ⟨by simp [hpage], by simp [hpage], by simp [hpage]⟩

/-- Witness for C2, at the spec's example: rollups
{u1 ↦ 50, u2 ↦ 80, u3 ↦ 30} synced for the 30-day window give
`page(30d, limit 2, cursor 0) = [u2(80), u1(50)]` with `nextCursor = 2`
and `page(30d, limit 2, cursor 2) = [u3(30)]` with `nextCursor = none`,
both served from the cache. -/
theorem getLeaderboardPage_cache_next_cursor_witness :
    ((getLeaderboardPage
        (fun _ => CacheState.ok [⟨"u2", 80⟩, ⟨"u1", 50⟩, ⟨"u3", 30⟩])
        [] WindowKey.w30d 2 (some 0)).source = Source.redis ∧
     (getLeaderboardPage
        (fun _ => CacheState.ok [⟨"u2", 80⟩, ⟨"u1", 50⟩, ⟨"u3", 30⟩])
        [] WindowKey.w30d 2 (some 0)).entries
        = topFromRedis
            (CacheState.ok [⟨"u2", 80⟩, ⟨"u1", 50⟩, ⟨"u3", 30⟩]) 0 1 ∧
     (getLeaderboardPage
        (fun _ => CacheState.ok [⟨"u2", 80⟩, ⟨"u1", 50⟩, ⟨"u3", 30⟩])
        [] WindowKey.w30d 2 (some 0)).nextCursor
        = (if (getLeaderboardPage
                (fun _ => CacheState.ok
                  [⟨"u2", 80⟩, ⟨"u1", 50⟩, ⟨"u3", 30⟩])
                [] WindowKey.w30d 2 (some 0)).entries.length = (2 : Int).toNat
           then some (0 + 2) else none)) ∧
    ((getLeaderboardPage
        (fun _ => CacheState.ok [⟨"u2", 80⟩, ⟨"u1", 50⟩, ⟨"u3", 30⟩])
        [] WindowKey.w30d 2 (some 2)).source = Source.redis ∧
     (getLeaderboardPage
        (fun _ => CacheState.ok [⟨"u2", 80⟩, ⟨"u1", 50⟩, ⟨"u3", 30⟩])
        [] WindowKey.w30d 2 (some 2)).entries
        = topFromRedis
            (CacheState.ok [⟨"u2", 80⟩, ⟨"u1", 50⟩, ⟨"u3", 30⟩]) 2 3 ∧
     (getLeaderboardPage
        (fun _ => CacheState.ok [⟨"u2", 80⟩, ⟨"u1", 50⟩, ⟨"u3", 30⟩])
        [] WindowKey.w30d 2 (some 2)).nextCursor
        = (if (getLeaderboardPage
                (fun _ => CacheState.ok
                  [⟨"u2", 80⟩, ⟨"u1", 50⟩, ⟨"u3", 30⟩])
                [] WindowKey.w30d 2 (some 2)).entries.length = (2 : Int).toNat
           then some (2 + 2) else none)) ∧
    topFromRedis (CacheState.ok [⟨"u2", 80⟩, ⟨"u1", 50⟩, ⟨"u3", 30⟩]) 0 1
      = [⟨"u2", 80⟩, ⟨"u1", 50⟩] ∧
    topFromRedis (CacheState.ok [⟨"u2", 80⟩, ⟨"u1", 50⟩, ⟨"u3", 30⟩]) 2 3
      = [⟨"u3", 30⟩] :=
  ⟨getLeaderboardPage_cache_next_cursor
      (fun _ => CacheState.ok [⟨"u2", 80⟩, ⟨"u1", 50⟩, ⟨"u3", 30⟩])
      [] WindowKey.w30d 2 0 (by decide) (by decide) (by decide) (by decide),
   getLeaderboardPage_cache_next_cursor
      (fun _ => CacheState.ok [⟨"u2", 80⟩, ⟨"u1", 50⟩, ⟨"u3", 30⟩])
      [] WindowKey.w30d 2 2 (by decide) (by decide) (by decide) (by decide),
   by decide, by decide⟩

/-- Membership in a descending insertion. -/
theorem mem_insertByTotalDesc {x r : RollupRow} {l : List RollupRow} :
    x ∈ insertByTotalDesc r l ↔ x = r ∨ x ∈ l := by
  induction l with
  | nil => simp [insertByTotalDesc]
  | cons y ys ih =>
    by_cases hc : y.total < r.total
    · simp [insertByTotalDesc, hc]
    · simp [insertByTotalDesc, hc, ih]
      tauto

/-- Descending insertion preserves descending order. -/
theorem sorted_insertByTotalDesc (r : RollupRow) {l : List RollupRow}
    (h : l.Pairwise (fun a b => b.total ≤ a.total)) :
    (insertByTotalDesc r l).Pairwise (fun a b => b.total ≤ a.total) := by
  induction l with
  | nil => simp [insertByTotalDesc]
  | cons y ys ih =>
    rw [List.pairwise_cons] at h
    obtain ⟨hy, hys⟩ := h
    by_cases hc : y.total < r.total
    · simp only [insertByTotalDesc, if_pos hc]
      refine List.pairwise_cons.mpr ⟨?_, List.pairwise_cons.mpr ⟨hy, hys⟩⟩
      intro z hz
      rcases List.mem_cons.mp hz with hz | hz
      · exact hz ▸ le_of_lt hc
      · exact le_trans (hy z hz) (le_of_lt hc)
    · simp only [insertByTotalDesc, if_neg hc]
      refine List.pairwise_cons.mpr ⟨?_, ih hys⟩
      intro z hz
      rcases mem_insertByTotalDesc.mp hz with rfl | hz
      · exact le_of_not_lt hc
      · exact hy z hz

/-- The model of `ORDER BY total DESC` produces a descending list. -/
theorem sorted_sortByTotalDesc (l : List RollupRow) :
    (sortByTotalDesc l).Pairwise (fun a b => b.total ≤ a.total) := by
  induction l with
  | nil => simp [sortByTotalDesc]
  | cons x xs ih =>
    simp only [sortByTotalDesc]
    exact sorted_insertByTotalDesc x ih

/-- The DB fallback page is ordered by total (score) descending. -/
theorem sorted_topFromDb (tbl : RollupTable) (w : WindowKey)
    (limit offset : Nat) :
    (topFromDb tbl w limit offset).Pairwise
      (fun a b => b.score ≤ a.score) := by
  unfold topFromDb
  rw [List.pairwise_map]
  exact (sorted_sortByTotalDesc _).sublist
    ((List.take_sublist _ _).trans (List.drop_sublist _ _))

/-- C3: whenever the ranked-cache range query yields no entries — and in
particular on any cache read error, which `topFromRedis` always converts
into the empty answer instead of propagating — the page is served from
the durable store for the same window with the same offset/limit,
labeled `source = db` (the durable tier), and that durable page is
ordered by total descending. -/
theorem getLeaderboardPage_db_fallback :
    (∀ start stop : Int, topFromRedis CacheState.err start stop = []) ∧
    (∀ (cache : WindowKey → CacheState) (tbl : RollupTable)
        (w : WindowKey) (limit : Int) (cursor : Option Int),
      topFromRedis (cache w) (effStart cursor)
          (effStart cursor + effLimit limit - 1) = [] →
      getLeaderboardPage cache tbl w limit cursor =
        { entries := topFromDb tbl w (effLimit limit).toNat
            (effStart cursor).toNat,
          nextCursor :=
            if (topFromDb tbl w (effLimit limit).toNat
                  (effStart cursor).toNat).length = (effLimit limit).toNat
            then some (effStart cursor + effLimit limit) else none,
          source := Source.db }) ∧
    (∀ (tbl : RollupTable) (w : WindowKey) (limit offset : Nat),
      (topFromDb tbl w limit offset).Pairwise
        (fun a b => b.score ≤ a.score)) := by
  refine ⟨fun _ _ => rfl, ?_, sorted_topFromDb⟩
  intro cache tbl w limit cursor h
  simp [getLeaderboardPage, h]

/-- Witness for C3: an erroring cache with a one-row durable store serves
the page from the durable store with the stored total as score. -/
theorem getLeaderboardPage_db_fallback_witness :
    (getLeaderboardPage (fun _ => CacheState.err)
        [⟨"u1", PeriodKey.last_30d, 1, 2, 3, 6, 0, 0⟩]
        WindowKey.w30d 10 none =
      { entries := topFromDb [⟨"u1", PeriodKey.last_30d, 1, 2, 3, 6, 0, 0⟩]
          WindowKey.w30d (effLimit 10).toNat (effStart none).toNat,
        nextCursor :=
          if (topFromDb [⟨"u1", PeriodKey.last_30d, 1, 2, 3, 6, 0, 0⟩]
                WindowKey.w30d (effLimit 10).toNat
                (effStart none).toNat).length = (effLimit 10).toNat
          then some (effStart none + effLimit 10) else none,
        source := Source.db }) ∧
    topFromDb [⟨"u1", PeriodKey.last_30d, 1, 2, 3, 6, 0, 0⟩]
        WindowKey.w30d 10 0 = [⟨"u1", 6⟩] :=
  ⟨getLeaderboardPage_db_fallback.2.1 (fun _ => CacheState.err)
      [⟨"u1", PeriodKey.last_30d, 1, 2, 3, 6, 0, 0⟩]
      WindowKey.w30d 10 none (by decide),
   by decide⟩

/-- C4: the lock lease protocol.  For a key holding an unexpired lease:
`acquire` returns null; `release` with a token different from the stored
token (including the missing/undefined token) leaves the lease in place
(atomic compare-and-delete); and after `release` with the matching
token, a subsequent `acquire` succeeds and returns the fresh token. -/
theorem acquireLock_releaseLock_token_protocol
    (s : LockStore) (key : String) (ttl now : Nat) (fresh fresh2 : String)
    (l : Lease) (hheld : s key = some l) (hunexp : now < l.expiresAt) :
    (acquireLock s key ttl now fresh).1 = none ∧
    (∀ t : Option String, t ≠ some l.token →
      releaseLock false s key t now key = some l) ∧
    (acquireLock (releaseLock false s key (some l.token) now)
        key ttl now fresh2).1 = some fresh2 := by
  refine ⟨?_, ?_, ?_⟩
  · simp [acquireLock, hheld, hunexp]
  · intro t ht
    have hm : tokenMatches l.token t = false := by
      cases t with
      | none => rfl
      | some x =>
        have : l.token ≠ x := fun hx => ht (by rw [hx])
        simp [tokenMatches, this]
    simp [releaseLock, hheld, hm]
  · have hrel : releaseLock false s key (some l.token) now key = none := by
      simp [releaseLock, hheld, hunexp, tokenMatches]
    simp [acquireLock, hrel]

/-- Witness for C4 at a concrete store: key "k" holds lease
("t0", expiry 60) at time 10; acquire fails, release with a wrong token
leaves the lease, release with "t0" lets a new acquire obtain "f2". -/
theorem acquireLock_releaseLock_token_protocol_witness :
    (acquireLock (fun k => if k = "k" then some ⟨"t0", 60⟩ else none)
        "k" 30 10 "f1").1 = none ∧
    releaseLock false (fun k => if k = "k" then some ⟨"t0", 60⟩ else none)
        "k" (some "wrong") 10 "k" = some ⟨"t0", 60⟩ ∧
    (acquireLock
        (releaseLock false
          (fun k => if k = "k" then some ⟨"t0", 60⟩ else none)
          "k" (some "t0") 10)
        "k" 30 10 "f2").1 = some "f2" :=
  ⟨(acquireLock_releaseLock_token_protocol
      (fun k => if k = "k" then some ⟨"t0", 60⟩ else none)
      "k" 30 10 "f1" "f2" ⟨"t0", 60⟩ (by decide) (by decide)).1,
   (acquireLock_releaseLock_token_protocol
      (fun k => if k = "k" then some ⟨"t0", 60⟩ else none)
      "k" 30 10 "f1" "f2" ⟨"t0", 60⟩ (by decide) (by decide)).2.1
      (some "wrong") (by decide),
   (acquireLock_releaseLock_token_protocol
      (fun k => if k = "k" then some ⟨"t0", 60⟩ else none)
      "k" 30 10 "f1" "f2" ⟨"t0", 60⟩ (by decide) (by decide)).2.2⟩

/-- C8: `withLock` propagates exactly the wrapped function's outcome when
acquisition succeeds — the scoped release never throws (it is total even
when the storage call fails, for every `relFails`), so the outcome is
the function's own value or error mapped into `fnError`; when
acquisition fails, `withLock` yields the lock-conflict error and the
untouched store, independent of the function (which is never run). -/
theorem withLock_outcome_propagation {ε α : Type}
    (relFails : Bool) (s : LockStore) (key : String) (ttl now : Nat)
    (fresh : String) (fn : LockStore → Except ε α × LockStore) :
    ((acquireLock s key ttl now fresh).1 = none →
      withLock relFails s key ttl now fresh fn
        = (Except.error WithLockErr.conflict, s)) ∧
    (∀ tok : String, (acquireLock s key ttl now fresh).1 = some tok →
      (withLock relFails s key ttl now fresh fn).1
        = ((fn (acquireLock s key ttl now fresh).2).1).mapError
            WithLockErr.fnError) := by
  constructor
  · intro h
    have hpair : acquireLock s key ttl now fresh = (none, s) := by
      unfold acquireLock at h ⊢
      cases hsk : s key with
      | none => simp [hsk] at h
      | some l =>
        simp only [hsk] at h ⊢
        by_cases he : now < l.expiresAt
        · simp [he]
        · simp [he] at h
    simp [withLock, hpair]
  · intro tok h
    rcases hacq : acquireLock s key ttl now fresh with ⟨o, s1⟩
    rw [hacq] at h
    simp only at h
    subst h
    simp only [withLock, hacq]
    cases hfn : (fn s1).1 <;> simp [hfn, Except.mapError]

/-- Witness for C8: on a held key the conflict error and untouched store
come back without consulting the function; on a free key the function's
error is re-raised as `fnError`. -/
theorem withLock_outcome_propagation_witness :
    (withLock false (fun k => if k = "k" then some ⟨"t0", 60⟩ else none)
        "k" 30 10 "f"
        (fun st => ((Except.error (7 : Nat) : Except Nat Unit), st))
      = (Except.error WithLockErr.conflict,
         fun k => if k = "k" then some ⟨"t0", 60⟩ else none)) ∧
    ((withLock false (fun _ => (none : Option Lease)) "k" 30 10 "f"
        (fun st => ((Except.error (7 : Nat) : Except Nat Unit), st))).1
      = (((fun (st : LockStore) =>
              ((Except.error (7 : Nat) : Except Nat Unit), st))
            ((acquireLock (fun _ => (none : Option Lease))
              "k" 30 10 "f").2)).1).mapError WithLockErr.fnError) :=
  ⟨(withLock_outcome_propagation false
      (fun k => if k = "k" then some ⟨"t0", 60⟩ else none)
      "k" 30 10 "f"
      (fun st => ((Except.error (7 : Nat) : Except Nat Unit), st))).1
      (by decide),
   (withLock_outcome_propagation false (fun _ => (none : Option Lease))
      "k" 30 10 "f"
      (fun st => ((Except.error (7 : Nat) : Except Nat Unit), st))).2 "f"
      (by decide)⟩

/-- C5 (divergence witness): in the dual-provider branch, with both lock
keys free, both leases are acquired, `runOnce` succeeds and the route
returns OK — but on the way out the source calls `releaseLock(k2)` with
the token argument omitted, so the compare-and-delete never matches the
stored random token: the GitLab (second-acquired) lease is still held
(until TTL expiry) after the operation completes, while the GitHub
(first) lease is correctly released by `withLock`'s scoped release. -/
theorem dualBackfill_second_lease_left_held :
    (dualProviderBackfill false (fun _ => none)
        (backfillLockKey "github" "u") (backfillLockKey "gitlab" "u")
        300 1000 "tA" "tB" (Except.ok ())).1 = Except.ok () ∧
    (dualProviderBackfill false (fun _ => none)
        (backfillLockKey "github" "u") (backfillLockKey "gitlab" "u")
        300 1000 "tA" "tB" (Except.ok ())).2
        (backfillLockKey "github" "u") = none ∧
    (dualProviderBackfill false (fun _ => none)
        (backfillLockKey "github" "u") (backfillLockKey "gitlab" "u")
        300 1000 "tA" "tB" (Except.ok ())).2
        (backfillLockKey "gitlab" "u") = some ⟨"tB", 1300⟩ := by
  refine ⟨rfl, by decide, by decide⟩

/-- C6: the 30-day totals of `getGitlabContributionRollups` are computed
by filtering the already-fetched 365-day public event set by timestamp —
the derivation's only input is that set, no separate 30-day fetch
exists — and for every event set whose members lie below the window's
upper bound (as `fetchUserEventsByWindow` enforces per page), they equal
the counting function applied to the direct 30-day window filter
`[from30Ms, toMs)` of the same set. -/
theorem gitlab_thirty_day_derivation
    (pub365 : List GitlabEvent) (from30Ms toMs : Int)
    (hwin : ∀ e ∈ pub365, e.created_at < toMs) :
    (gitlabRollupCounts pub365 from30Ms).1
      = reducePublicContributionCounts
          (directWindowFilter pub365 from30Ms toMs) := by
  unfold gitlabRollupCounts directWindowFilter
  simp only
  congr 1
  apply List.filter_congr
  intro e he
  have h := hwin e he
  simp [h]

/-- Witness for C6 on a synthetic event set: a push event inside the
30-day window and one outside it. -/
theorem gitlab_thirty_day_derivation_witness :
    (gitlabRollupCounts
        [⟨1, some 9, some "pushed to", none, 100, some ⟨some 3⟩⟩,
         ⟨2, some 9, some "pushed to", none, 5, some ⟨some 4⟩⟩] 50).1
      = reducePublicContributionCounts
          (directWindowFilter
            [⟨1, some 9, some "pushed to", none, 100, some ⟨some 3⟩⟩,
             ⟨2, some 9, some "pushed to", none, 5, some ⟨some 4⟩⟩]
            50 200) :=
  gitlab_thirty_day_derivation
    [⟨1, some 9, some "pushed to", none, 100, some ⟨some 3⟩⟩,
     ⟨2, some 9, some "pushed to", none, 5, some ⟨some 4⟩⟩]
    50 200 (by decide)

/-- One counting step keeps all three counters non-negative. -/
theorem reduceStep_bounds (acc : Counts) (e : GitlabEvent)
    (h1 : 0 ≤ acc.commits) (h2 : 0 ≤ acc.mrs) (h3 : 0 ≤ acc.issues) :
    0 ≤ (reduceStep acc e).commits ∧ 0 ≤ (reduceStep acc e).mrs ∧
    0 ≤ (reduceStep acc e).issues := by
  unfold reduceStep
  cases hpd : e.push_data with
  | none => simp only; split_ifs <;> simp_all <;> omega
  | some pd =>
    cases hcc : pd.commit_count with
    | none => simp only; split_ifs <;> simp_all <;> omega
    | some cc =>
      have hm : (0 : Int) ≤ max 0 cc := le_max_left 0 cc
      simp only
      split_ifs <;> simp_all <;> omega

/-- The counting fold keeps all three counters non-negative. -/
theorem reduceFold_nonneg (l : List GitlabEvent) :
    ∀ acc : Counts, 0 ≤ acc.commits → 0 ≤ acc.mrs → 0 ≤ acc.issues →
    0 ≤ (l.foldl reduceStep acc).commits ∧
    0 ≤ (l.foldl reduceStep acc).mrs ∧
    0 ≤ (l.foldl reduceStep acc).issues := by
  induction l with
  | nil => intro acc h1 h2 h3; simpa using ⟨h1, h2, h3⟩
  | cons e es ih =>
    intro acc h1 h2 h3
    have hb := reduceStep_bounds acc e h1 h2 h3
    simpa [List.foldl_cons] using ih (reduceStep acc e) hb.1 hb.2.1 hb.2.2

/-- C10: `reducePublicContributionCounts` returns non-negative commits,
mrs and issues on every event list; a push event's embedded commit count
contributes `max 0 commit_count` (a negative value is clamped to 0);
and an event carrying `push_data` whose action is not a push contributes
no commits, but is still counted as an opened merge request or an opened
issue when its target and action match. -/
theorem reduceCounts_nonneg_and_push_rules :
    (∀ events : List GitlabEvent,
      0 ≤ (reducePublicContributionCounts events).commits ∧
      0 ≤ (reducePublicContributionCounts events).mrs ∧
      0 ≤ (reducePublicContributionCounts events).issues) ∧
    (∀ (acc : Counts) (e : GitlabEvent) (pd : PushData) (cc : Int),
      e.push_data = some pd → pd.commit_count = some cc →
      strIncludes (toLowerStr (e.action_name.getD "")) "push" = true →
      (reduceStep acc e).commits = acc.commits + max 0 cc) ∧
    (∀ (acc : Counts) (e : GitlabEvent) (pd : PushData) (cc : Int),
      e.push_data = some pd → pd.commit_count = some cc →
      strIncludes (toLowerStr (e.action_name.getD "")) "push" = false →
      (reduceStep acc e).commits = acc.commits ∧
      (reduceStep acc e).mrs
        = (if e.target_type = some "MergeRequest" ∧
              toLowerStr (e.action_name.getD "") = "opened"
           then acc.mrs + 1 else acc.mrs) ∧
      (reduceStep acc e).issues
        = (if e.target_type = some "Issue" ∧
              toLowerStr (e.action_name.getD "") = "opened"
           then acc.issues + 1 else acc.issues)) := by
  refine ⟨?_, ?_, ?_⟩
  · intro events
    exact reduceFold_nonneg events ⟨0, 0, 0⟩ le_rfl le_rfl le_rfl
  · intro acc e pd cc hpd hcc hpush
    simp [reduceStep, hpd, hcc, hpush]
  · intro acc e pd cc hpd hcc hpush
    have hred : reduceStep acc e =
        (if e.target_type = some "MergeRequest" ∧
            toLowerStr (e.action_name.getD "") = "opened"
         then { acc with mrs := acc.mrs + 1 }
         else if e.target_type = some "Issue" ∧
            toLowerStr (e.action_name.getD "") = "opened"
         then { acc with issues := acc.issues + 1 }
         else acc) := by
      simp [reduceStep, hpd, hcc, hpush]
    refine ⟨?_, ?_, ?_⟩
    · rw [hred]; split_ifs <;> rfl
    · rw [hred]
      by_cases hmr : e.target_type = some "MergeRequest" ∧
          toLowerStr (e.action_name.getD "") = "opened"
      · rw [if_pos hmr, if_pos hmr]
      · rw [if_neg hmr, if_neg hmr]
        split_ifs <;> rfl
    · rw [hred]
      by_cases hmr : e.target_type = some "MergeRequest" ∧
          toLowerStr (e.action_name.getD "") = "opened"
      · have hni : ¬(e.target_type = some "Issue" ∧
            toLowerStr (e.action_name.getD "") = "opened") := by
          intro hiss
          rw [hmr.1] at hiss
          exact (by simpa using hiss.1 : False)
        rw [if_pos hmr, if_neg hni]
      · rw [if_neg hmr]
        split_ifs <;> rfl

/-- Witness for C10: a non-push event with `push_data` and an opened
merge-request shape adds no commits but one MR; a push event with a
negative embedded commit count adds `max 0 (-5) = 0` commits. -/
theorem reduceCounts_nonneg_and_push_rules_witness :
    ((reduceStep ⟨0, 0, 0⟩
        ⟨1, some 9, some "opened", some "MergeRequest", 0,
          some ⟨some 3⟩⟩).commits = (0 : Int) ∧
     (reduceStep ⟨0, 0, 0⟩
        ⟨1, some 9, some "opened", some "MergeRequest", 0,
          some ⟨some 3⟩⟩).mrs
        = (if (some "MergeRequest" : Option String) = some "MergeRequest" ∧
              toLowerStr ((some "opened" : Option String).getD "") = "opened"
           then (0 : Int) + 1 else 0) ∧
     (reduceStep ⟨0, 0, 0⟩
        ⟨1, some 9, some "opened", some "MergeRequest", 0,
          some ⟨some 3⟩⟩).issues
        = (if (some "MergeRequest" : Option String) = some "Issue" ∧
              toLowerStr ((some "opened" : Option String).getD "") = "opened"
           then (0 : Int) + 1 else 0)) ∧
    (reduceStep ⟨2, 0, 0⟩
        ⟨2, some 9, some "pushed to", none, 0,
          some ⟨some (-5)⟩⟩).commits = (2 : Int) + max 0 (-5) :=
  ⟨reduceCounts_nonneg_and_push_rules.2.2 ⟨0, 0, 0⟩
      ⟨1, some 9, some "opened", some "MergeRequest", 0, some ⟨some 3⟩⟩
      ⟨some 3⟩ 3 rfl rfl (by decide),
   reduceCounts_nonneg_and_push_rules.2.1 ⟨2, 0, 0⟩
      ⟨2, some 9, some "pushed to", none, 0, some ⟨some (-5)⟩⟩
      ⟨some (-5)⟩ (-5) rfl rfl (by decide)⟩

/-- C7: in a batch cycle, only ids absent from the completion set are
dispatched; every dispatched id whose call succeeded is in the
completion set at the end of the batch; and over a fully completed
population (every id already in the completion set) the cycle dispatches
zero work. -/
theorem batch_cycle_resumability
    (allIds done : List String) (bs : Nat) (meta : String → UserMeta)
    (callOk : String → Bool) :
    (∀ id ∈ (runBatchCycle allIds done bs meta callOk).dispatched,
      id ∉ done) ∧
    (∀ id ∈ (runBatchCycle allIds done bs meta callOk).dispatched,
      callOk id = true →
      id ∈ (runBatchCycle allIds done bs meta callOk).doneAfter) ∧
    ((∀ id ∈ allIds, id ∈ done) →
      (runBatchCycle allIds done bs meta callOk).dispatched = []) := by
  refine ⟨?_, ?_, ?_⟩
  · intro id hid
    unfold runBatchCycle at hid
    cases hu : filterUndone allIds done with
    | nil => rw [hu] at hid; simp at hid
    | cons u us =>
      rw [hu] at hid
      simp only at hid
      have h1 : id ∈ (u :: us).take bs := List.mem_of_mem_filter hid
      have h2 : id ∈ (u :: us) := List.mem_of_mem_take h1
      have h3 : id ∈ filterUndone allIds done := hu ▸ h2
      unfold filterUndone at h3
      rw [List.mem_filter] at h3
      intro hmem
      simp [List.contains, hmem] at h3
  · intro id hid hok
    unfold runBatchCycle at hid ⊢
    cases hu : filterUndone allIds done with
    | nil => rw [hu] at hid; simp at hid
    | cons u us =>
      rw [hu] at hid
      simp only at hid ⊢
      exact List.mem_append_right done (List.mem_filter.mpr ⟨hid, hok⟩)
  · intro hall
    have hempty : filterUndone allIds done = [] := by
      unfold filterUndone
      rw [List.filter_eq_nil_iff]
      intro a ha
      simp [List.contains, hall a ha]
    unfold runBatchCycle
    rw [hempty]

/-- Witness for C7: population {a, b} with {a} already done dispatches
only b and completes it; the fully completed population {a} with done
set {a} dispatches nothing. -/
theorem batch_cycle_resumability_witness :
    ("b" ∉ (["a"] : List String)) ∧
    ("b" ∈ (runBatchCycle ["a", "b"] ["a"] 10
        (fun _ => ⟨some "g", none⟩) (fun _ => true)).doneAfter) ∧
    ((runBatchCycle ["a"] ["a"] 10
        (fun _ => ⟨some "g", none⟩) (fun _ => true)).dispatched = []) ∧
    ((runBatchCycle ["a", "b"] ["a"] 10
        (fun _ => ⟨some "g", none⟩) (fun _ => true)).dispatched = ["b"]) :=
  ⟨(batch_cycle_resumability ["a", "b"] ["a"] 10
      (fun _ => ⟨some "g", none⟩) (fun _ => true)).1 "b" (by decide),
   (batch_cycle_resumability ["a", "b"] ["a"] 10
      (fun _ => ⟨some "g", none⟩) (fun _ => true)).2.1 "b" (by decide) rfl,
   (batch_cycle_resumability ["a"] ["a"] 10
      (fun _ => ⟨some "g", none⟩) (fun _ => true)).2.2 (by decide),
   by decide⟩

end Ossdotnow
